import Mathlib

/-!
Verification development for the `localcache` repository (src/localcache.py).

The development is a shallow embedding of the `localcache` class: Python
values become the inductive type `PyVal`, the filesystem becomes the explicit
state `FS` (an association list of file paths to contents, a list of existing
directories, and a directory listing map), fallible Python code becomes
`Except Err`, and each method of the class becomes a Lean function of the
same name acting on that state.

External collaborators of the repository (the OS path functions, `hashlib`,
and the gzip+pickle blob codec, all of which the specification excludes from
the core) are modelled by executable Lean definitions; each such definition
carries a doc comment saying what it models.

A central point of the embedding: at three places the source passes the
bound method `self._get_local_repo_base_path` itself (without call
parentheses) to `os.path.join` (lines 119, 173 and 191 of the source).
In Python this makes `os.path.join` receive a method object instead of a
string and raise `TypeError`.  The embedding keeps this distinction with the
type `PathOperand`: a join operand is either a string or the bound method
object, and `os_path_join` fails with `Err.typeError` on the latter, exactly
as `os.path.join` does.
-/

/-! ### Path model -/

/-- Models `os.path.join` for two string operands: the right operand wins if
absolute, otherwise the operands are glued with a single separator. -/
def pyJoin (a b : String) : String :=
  if b.data.isPrefixOf "/".data then b
  else if a = "" then b
  else if "/".data.isSuffixOf a.data then a ++ b
  else a ++ "/" ++ b

/-- Models resolution of a possibly relative path against the current working
directory, as the OS does for `os.path.exists`, `os.path.isdir`, `open` and
friends (normalisation of dots is elided; no claim depends on it). -/
def resolve (cwd p : String) : String :=
  if "/".data.isPrefixOf p.data then p else pyJoin cwd p

/-- Models the Python string slice `s[:n]` (slicing is by characters). -/
def strTake (s : String) (n : Nat) : String :=
  String.mk (s.data.take n)

/-- Models the Python string index `s[-1]` (the last character). -/
def strLastChar (s : String) : Char :=
  s.data.getLastD ' '

/-- Models `os.path.basename`: the part after the last separator. -/
def os_path_basename (p : String) : String :=
  String.mk ((p.data.reverse.takeWhile (fun c => c ≠ '/')).reverse)

/-- Models `os.path.dirname`: the part before the last separator. -/
def pyDirname (p : String) : String :=
  match p.data.reverse.dropWhile (fun c => c ≠ '/') with
  | [] => ""
  | _ :: rest => if rest.isEmpty then "/" else String.mk rest.reverse

/-! ### Hash model -/

/-- Lowercase hexadecimal digit character for a value below 16, as produced
by Python `hex()` and by `hexdigest()`. -/
def hexDigitChar (d : Nat) : Char :=
  if d < 10 then Char.ofNat (48 + d) else Char.ofNat (87 + d)

/-- Hexadecimal digit list of a natural number, most significant first,
computed with explicit fuel so that the definition is structurally
recursive. -/
def pyHexDigitsFuel : Nat → Nat → List Char
  | 0, _ => []
  | fuel + 1, n =>
    if n < 16 then [hexDigitChar n]
    else pyHexDigitsFuel fuel (n / 16) ++ [hexDigitChar (n % 16)]

/-- Models Python `hex(n)` for a natural number: the string `0x` followed by
the lowercase hexadecimal digits of `n`. -/
def pyHex (n : Nat) : String :=
  "0x" ++ String.mk (pyHexDigitsFuel (n + 1) n)

/-- Modelled from the spec: `hashlib.sha1(s.encode()).hexdigest()` is not in
the repository; spec section 4.2 describes `hash_name` as a deterministic
one-shot cryptographic hex digest of a short string, used purely as a
key/shard derivation and not as a security boundary.  It is modelled as a
deterministic 40-character lowercase hexadecimal digest. -/
def stringSeed (s : String) : Nat :=
  s.data.foldl (fun acc c => (acc * (16 ^ 37 + 131) + c.toNat + 1) % 16 ^ 40) 7

/-- Modelled from the spec: the 40-character lowercase hex digest string of
`stringSeed`, standing in for `hexdigest()` of `hashlib.sha1` on a name. -/
def sha1Hex (s : String) : String :=
  String.mk ((List.range 40).map (fun i => hexDigitChar (stringSeed s / 16 ^ (39 - i) % 16)))

/-- Modelled from the spec: content digest of raw file bytes, standing in for
the streamed `hashlib.sha1` digest computed by `_hash_file_contents` (the
64 KiB chunking of the stream is an I/O detail with no observable effect on
the digest, so the model hashes the whole byte list). -/
def bytesSeed (bs : List Nat) : Nat :=
  bs.foldl (fun acc b => (acc * (16 ^ 37 + 257) + b + 1) % 16 ^ 40) 11

/-- Modelled from the spec: the 40-character lowercase hex digest string of
`bytesSeed`, standing in for `hexdigest()` of `hashlib.sha1` on file
contents. -/
def sha1HexBytes (bs : List Nat) : String :=
  String.mk ((List.range 40).map (fun i => hexDigitChar (bytesSeed bs / 16 ^ (39 - i) % 16)))

/-! ### Python values and errors -/

/-- Python values handled by the cache: `None`, integers, strings, lists,
dictionaries with string keys, and the built-in type object `dict` itself
(which the guard `metadata is not dict` in `add_metadata` compares
against). -/
inductive PyVal where
  | none
  | int (n : Int)
  | str (s : String)
  | list (xs : List PyVal)
  | dict (kvs : List (String × PyVal))
  | dictType

/-- Python exceptions raised by the embedded code. -/
inductive Err where
  | typeError (msg : String)
  | fileNotFound (msg : String)
  | keyError
  | assertionError (msg : String)
  | ioError
  | unpicklingError
deriving DecidableEq

/-! ### Dictionary operations -/

/-- Models Python dictionary item assignment `d[k] = v`: replace in place if
the key is present, otherwise append (insertion order preserved). -/
def dictSet (kvs : List (String × PyVal)) (k : String) (v : PyVal) : List (String × PyVal) :=
  if kvs.any (fun kv => kv.1 == k) then
    kvs.map (fun kv => if kv.1 == k then (k, v) else kv)
  else kvs ++ [(k, v)]

/-- Models Python `dict.update`: shallow merge, values of the argument win,
insertion order of existing keys preserved. -/
def dictUpdate (a b : List (String × PyVal)) : List (String × PyVal) :=
  b.foldl (fun acc kv => dictSet acc kv.1 kv.2) a

/-- Models the Python subscript `d[k]`: `KeyError` on a missing key,
`TypeError` when the value is not a dictionary. -/
def pyGetItem (v : PyVal) (k : String) : Except Err PyVal :=
  match v with
  | .dict kvs =>
    match kvs.lookup k with
    | some w => .ok w
    | Option.none => .error .keyError
  | _ => .error (.typeError "object is not subscriptable")

/-- Models the Python call `u.update(m)` on a value `u` retrieved from a
record: `AttributeError`-like failure (rendered as `TypeError`) if `u` is not
a dictionary, `TypeError` if `m` is not a dictionary. -/
def pyDictUpdate (u m : PyVal) : Except Err PyVal :=
  match u, m with
  | .dict a, .dict b => .ok (.dict (dictUpdate a b))
  | .dict _, _ => .error (.typeError "update argument is not iterable")
  | _, _ => .error (.typeError "object has no attribute update")

/-! ### Blob codec

Modelled from the spec: the compression/serialization codec (gzip + pickle)
is explicitly excluded from the core as a pluggable blob codec (spec
sections 1 and 6); the spec requires only a serialization format capable of
round-tripping nested mappings, sequences, strings and integers.  The model
is an executable token serializer: a value becomes a depth header together
with a flat token stream, and a fueled structural parser inverts it. -/

/-- Encoding of a Python integer as a single token (sign interleaving). -/
def intEnc (n : Int) : Nat :=
  if 0 ≤ n then 2 * n.toNat else 2 * (-n).toNat - 1

/-- Inverse of `intEnc`. -/
def intDec (t : Nat) : Int :=
  if t % 2 = 0 then ((t / 2 : Nat) : Int) else -(((t + 1) / 2 : Nat) : Int)

/-- Token stream of a string: a length token followed by one token per
character. -/
def strTokens (s : String) : List Nat :=
  s.data.length :: s.data.map Char.toNat

mutual
/-- Token stream of a value. -/
def encodeVal : PyVal → List Nat
  | .none => [0]
  | .int n => [1, intEnc n]
  | .str s => 2 :: strTokens s
  | .list xs => 3 :: xs.length :: encodeListTokens xs
  | .dict kvs => 4 :: kvs.length :: encodeDictTokens kvs
  | .dictType => [5]
/-- Token stream of the elements of a list value. -/
def encodeListTokens : List PyVal → List Nat
  | [] => []
  | x :: xs => encodeVal x ++ encodeListTokens xs
/-- Token stream of the entries of a dictionary value. -/
def encodeDictTokens : List (String × PyVal) → List Nat
  | [] => []
  | (k, v) :: kvs => strTokens k ++ encodeVal v ++ encodeDictTokens kvs
end

mutual
/-- Nesting measure of a value, used as parser fuel. -/
def pySize : PyVal → Nat
  | .none => 1
  | .int _ => 1
  | .str _ => 1
  | .list xs => 1 + pySizeList xs
  | .dict kvs => 1 + pySizeDict kvs
  | .dictType => 1
/-- Sum of the measures of the elements of a list value. -/
def pySizeList : List PyVal → Nat
  | [] => 0
  | x :: xs => pySize x + pySizeList xs
/-- Sum of the measures of the values of a dictionary value. -/
def pySizeDict : List (String × PyVal) → Nat
  | [] => 0
  | (_, v) :: kvs => pySize v + pySizeDict kvs
end

/-- Parses `n` characters from the token stream. -/
def decodeChars : Nat → List Nat → Option (List Char × List Nat)
  | 0, rest => some ([], rest)
  | _ + 1, [] => Option.none
  | n + 1, t :: rest =>
    match decodeChars n rest with
    | some (cs, r) => some (Char.ofNat t :: cs, r)
    | Option.none => Option.none

/-- Parses a string (length token, then characters) from the token stream. -/
def decodeStr : List Nat → Option (String × List Nat)
  | [] => Option.none
  | n :: rest =>
    match decodeChars n rest with
    | some (cs, r) => some (String.mk cs, r)
    | Option.none => Option.none

/-- Parses `n` values using the supplied element parser. -/
def decodeManyWith (dec : List Nat → Option (PyVal × List Nat)) :
    Nat → List Nat → Option (List PyVal × List Nat)
  | 0, rest => some ([], rest)
  | n + 1, rest =>
    match dec rest with
    | some (v, r) =>
      match decodeManyWith dec n r with
      | some (vs, r2) => some (v :: vs, r2)
      | Option.none => Option.none
    | Option.none => Option.none

/-- Parses `n` key-value pairs using the supplied value parser. -/
def decodePairsWith (dec : List Nat → Option (PyVal × List Nat)) :
    Nat → List Nat → Option (List (String × PyVal) × List Nat)
  | 0, rest => some ([], rest)
  | n + 1, rest =>
    match decodeStr rest with
    | some (k, r0) =>
      match dec r0 with
      | some (v, r) =>
        match decodePairsWith dec n r with
        | some (kvs, r2) => some ((k, v) :: kvs, r2)
        | Option.none => Option.none
      | Option.none => Option.none
    | Option.none => Option.none

/-- Fueled parser for a single value; the fuel bounds the nesting depth. -/
def decodeVal : Nat → List Nat → Option (PyVal × List Nat)
  | 0, _ => Option.none
  | fuel + 1, input =>
    match input with
    | 0 :: rest => some (.none, rest)
    | 1 :: t :: rest => some (.int (intDec t), rest)
    | 2 :: rest =>
      match decodeStr rest with
      | some (s, r) => some (.str s, r)
      | Option.none => Option.none
    | 3 :: n :: rest =>
      match decodeManyWith (decodeVal fuel) n rest with
      | some (xs, r) => some (.list xs, r)
      | Option.none => Option.none
    | 4 :: n :: rest =>
      match decodePairsWith (decodeVal fuel) n rest with
      | some (kvs, r) => some (.dict kvs, r)
      | Option.none => Option.none
    | 5 :: rest => some (.dictType, rest)
    | _ => Option.none

/-- A persisted blob: the fuel header and the token stream. -/
def Blob : Type := Nat × List Nat

/-- Serializes a value into a blob (models pickle.dump plus gzip). -/
def blobEncode (v : PyVal) : Blob :=
  (pySize v, encodeVal v)

/-- Deserializes a blob (models gzip plus pickle.load); fails on streams the
serializer cannot have produced, modelling corrupt or undecodable data. -/
def decodeBlob (b : Blob) : Option PyVal :=
  match decodeVal b.1 b.2 with
  | some (v, []) => some v
  | _ => Option.none

/-! ### Filesystem state -/

/-- Contents of a file on disk: raw bytes (source files, cache copies) or a
compressed serialized blob written by `_save_and_compress`. -/
inductive FileData where
  | raw (bytes : List Nat)
  | blob (b : Blob)

/-- Explicit filesystem state: files with contents, existing directories, and
the listing map consulted by `os.listdir`. -/
structure FS where
  files : List (String × FileData)
  dirs : List String
  listing : List (String × List String)

/-- Models `os.path.exists` against the explicit state. -/
def pyExists (cwd : String) (fs : FS) (p : String) : Bool :=
  (fs.files.lookup (resolve cwd p)).isSome || fs.dirs.contains (resolve cwd p)

/-- Models `os.path.isdir` against the explicit state; note that a relative
path is resolved against the current working directory, exactly as the OS
does. -/
def os_path_isdir (dirs : List String) (cwd p : String) : Bool :=
  dirs.contains (resolve cwd p)

/-- Models `os.listdir`. -/
def os_listdir (cwd : String) (fs : FS) (p : String) : Except Err (List String) :=
  match fs.listing.lookup (resolve cwd p) with
  | some entries => .ok entries
  | Option.none => .error (.fileNotFound "No such file or directory")

/-- Models `os.makedirs`: records the created directory (creation of the
intermediate directories and the failure on an already existing leaf are
elided; no claim depends on them). -/
def os_makedirs (dirs : List String) (p : String) : List String :=
  dirs ++ [p]

/-- Models the raw bytes the codec would lay down on disk for a stored file,
used by the content hash. -/
def fileBytes : FileData → List Nat
  | .raw bs => bs
  | .blob (f, ts) => f :: ts

/-- An operand of `os.path.join` as it appears in the source: either an
actual string, or the bound method object `self._get_local_repo_base_path`
that lines 119, 173 and 191 of the source pass without calling it. -/
inductive PathOperand where
  | str (s : String)
  | boundMethod

/-- Models `os.path.join` on a list of operands: Python raises `TypeError`
as soon as an operand is not path-like, and the method object is not. -/
def os_path_join : List PathOperand → Except Err String
  | [] => .error (.typeError "join needs at least one argument")
  | PathOperand.str s :: rest =>
    rest.foldl
      (fun acc part =>
        match acc, part with
        | .ok a, PathOperand.str b => .ok (pyJoin a b)
        | .ok _, PathOperand.boundMethod =>
          .error (.typeError "expected str, bytes or os.PathLike object, not method")
        | .error e, _ => .error e)
      (.ok s)
  | PathOperand.boundMethod :: _ =>
    .error (.typeError "expected str, bytes or os.PathLike object, not method")

/-- Models `shutil.copy`: fails when the source is missing, overwrites any
existing destination file. -/
def shutil_copy (cwd : String) (fs : FS) (src dst : String) : Except Err FS :=
  match fs.files.lookup (resolve cwd src) with
  | some fd =>
    .ok { fs with files :=
      (resolve cwd dst, fd) :: fs.files.filter (fun e => e.1 ≠ resolve cwd dst) }
  | Option.none =>
    if fs.dirs.contains (resolve cwd src) then .error .ioError
    else .error (.fileNotFound "No such file or directory")

/-! ### The localcache class

Each method of the `localcache` class from src/localcache.py; `self` becomes
the explicit pieces of state the method touches (`home` stands for the
expanded user home directory, `cwd` for the working directory of the
process, `fs` for the filesystem, and the in-memory `_sourceList` is a
Python list value passed and returned explicitly). -/

/-- Embeds `_get_local_repo_base_path`: `os.path.join(os.path.expanduser("~"),
".localcache")`, with `home` standing for the expanded home directory. -/
def _get_local_repo_base_path (home : String) : String :=
  pyJoin home ".localcache"

/-- Embeds `add_source`. The argument is `None`, a single value, or a list;
per the claims only paths (strings) occur as candidates. -/
inductive PySourceArg where
  | noneArg
  | strArg (s : String)
  | listArg (xs : List String)
  | otherArg

/-- Embeds `self._sourceList.extend(...)` and `.append(...)`: in Python these
are list methods, so a non-list receiver would fail. -/
def listExtend (st : PyVal) (new : List PyVal) : Except Err PyVal :=
  match st with
  | .list items => .ok (.list (items ++ new))
  | _ => .error (.typeError "object has no attribute extend")

/-- Embeds `add_source` (src lines 29 to 42): `None` raises `TypeError`;
a list is filtered through `os.path.isdir` and extends the source list; a
single string is appended if it is an existing directory; anything else
raises `TypeError`. -/
def add_source (dirs : List String) (cwd : String) (st : PyVal) (datasource : PySourceArg) :
    Except Err PyVal :=
  match datasource with
  | .noneArg => .error (.typeError "Expected data source to be specified.")
  | .listArg xs =>
    listExtend st ((xs.filter (fun item => os_path_isdir dirs cwd item)).map PyVal.str)
  | .strArg s =>
    if os_path_isdir dirs cwd s then listExtend st [PyVal.str s]
    else .error (.typeError "Unable to determine data source type.")
  | .otherArg => .error (.typeError "Unable to determine data source type.")

/-- Embeds `_save_and_compress` (src lines 63 to 72): remove any existing
file at the path, then open for writing (which fails when the parent
directory does not exist, and when the path names a directory the earlier
`os.remove` already fails) and dump the compressed pickle. -/
def _save_and_compress (cwd : String) (fs : FS) (filename : String) (data : PyVal) :
    Except Err FS :=
  if pyExists cwd fs filename then
    match fs.files.lookup (resolve cwd filename) with
    | some _ =>
      let files1 := fs.files.filter (fun e => e.1 ≠ resolve cwd filename)
      if fs.dirs.contains (pyDirname (resolve cwd filename)) then
        .ok { fs with files := (resolve cwd filename, FileData.blob (blobEncode data)) :: files1 }
      else .error .ioError
    | Option.none => .error .ioError
  else
    if fs.dirs.contains (pyDirname (resolve cwd filename)) then
      .ok { fs with files := (resolve cwd filename, FileData.blob (blobEncode data)) :: fs.files }
    else .error .ioError

/-- Embeds `_load_compressed_file` (src lines 74 to 84): missing path raises
`FileNotFoundError`; otherwise the file is decompressed and unpickled, which
fails on raw or undecodable contents. -/
def _load_compressed_file (cwd : String) (fs : FS) (filename : String) : Except Err PyVal :=
  if pyExists cwd fs filename then
    match fs.files.lookup (resolve cwd filename) with
    | some (FileData.blob b) =>
      match decodeBlob b with
      | some v => .ok v
      | Option.none => .error .unpicklingError
    | some (FileData.raw _) => .error .unpicklingError
    | Option.none => .error .ioError
  else .error (.fileNotFound "Unable to file")

/-- Embeds `scan_files` (src lines 44 to 55): list the source, drop the
entries for which `os.path.isdir(item)` holds — note the bare entry name is
resolved against the current working directory, not joined with the source —
then persist the file list keyed by the digest of the absolute source
path. -/
def scan_files (home cwd : String) (fs : FS) (datasource : String) : Except Err FS :=
  match os_listdir cwd fs datasource with
  | .error e => .error e
  | .ok entries =>
    let fileList := entries.filter (fun item => !(os_path_isdir fs.dirs cwd item))
    let outFile := sha1Hex (resolve cwd datasource) ++ ".sav"
    _save_and_compress cwd fs
      (pyJoin (pyJoin (pyJoin (_get_local_repo_base_path home) "meta") "dir") outFile)
      (.dict [("fileList", .list (fileList.map PyVal.str))])

/-- The list of one-character strings `[hex(val)[-1] for val in range(16)]`
from `init_setup` (src line 101), kept as characters. -/
def hexvals : List Char :=
  (List.range 16).map (fun val => strLastChar (pyHex val))

/-- The 256 shard names from `init_setup` (src line 102): the product of
`hexvals` with itself, formatted pairwise. -/
def shardCombs : List String :=
  (hexvals.map (fun a => hexvals.map (fun b => String.mk [a, b]))).flatten

/-- Shard directory for a shard name under `cache/`. -/
def cacheShardDir (home item : String) : String :=
  pyJoin (pyJoin (_get_local_repo_base_path home) "cache") item

/-- Shard directory for a shard name under `meta/file/`. -/
def metaFileShardDir (home item : String) : String :=
  pyJoin (pyJoin (pyJoin (_get_local_repo_base_path home) "meta") "file") item

/-- Embeds `init_setup` (src lines 92 to 106): create the top level
directories (`meta/dir`, `meta/files`, `cache`), then for every pairwise hex
combination create the shard directory under `cache/` and under
`meta/file/`. -/
def init_setup (home : String) (dirs0 : List String) : List String :=
  let pathList : List (List String) := [["meta", "dir"], ["meta", "files"], ["cache"]]
  let dirs1 := pathList.foldl
    (fun d child => os_makedirs d (child.foldl pyJoin (_get_local_repo_base_path home))) dirs0
  shardCombs.foldl
    (fun d item => os_makedirs (os_makedirs d (cacheShardDir home item)) (metaFileShardDir home item))
    dirs1

/-- The shard of a name: the first two characters of its digest, as computed
at src lines 118 to 119 and 171 to 173 (`hashval[:2]`). -/
def shard (n : String) : String :=
  strTake (sha1Hex n) 2

/-- Embeds `add_file_to_cache` (src lines 108 to 119): resolve the full
source path, then copy it to the cache shard; the destination is built with
`os.path.join(self._get_local_repo_base_path, "cache", hashval[:2],
filename)`, whose first operand is the bound method object. -/
def add_file_to_cache (cwd : String) (fs : FS) (filename : String) (datastore : Option String) :
    Except Err FS :=
  let fp :=
    match datastore with
    | some d => (pyJoin d filename, filename)
    | Option.none => (filename, os_path_basename filename)
  let hashval := sha1Hex fp.2
  match os_path_join
      [PathOperand.boundMethod, PathOperand.str "cache",
       PathOperand.str (strTake hashval 2), PathOperand.str fp.2] with
  | .error e => .error e
  | .ok dest => shutil_copy cwd fs fp.1 dest

/-- Embeds `save_states` (src lines 121 to 125). -/
def save_states (home cwd : String) (fs : FS) (st : PyVal) : Except Err FS :=
  _save_and_compress cwd fs (pyJoin (_get_local_repo_base_path home) "sources.state")
    (.dict [("datasource", st)])

/-- Embeds `load_states` (src lines 127 to 135): best effort restore; the
bare `except: pass` swallows every error and keeps the previous in-memory
list, and on success `_sourceList` becomes whatever `states["datasource"]`
holds. -/
def load_states (home cwd : String) (fs : FS) (st : PyVal) : PyVal :=
  match _load_compressed_file cwd fs (pyJoin (_get_local_repo_base_path home) "sources.state") with
  | .error _ => st
  | .ok states =>
    match pyGetItem states "datasource" with
    | .error _ => st
    | .ok v => v

/-- Embeds `_hash_file_contents` (src lines 137 to 153): missing path raises
`FileNotFoundError`; otherwise the digest of the file bytes (opening a
directory fails). -/
def _hash_file_contents (cwd : String) (fs : FS) (filename : String) : Except Err String :=
  if pyExists cwd fs filename then
    match fs.files.lookup (resolve cwd filename) with
    | some fd => .ok (sha1HexBytes (fileBytes fd))
    | Option.none => .error .ioError
  else .error (.fileNotFound "Unable to find file")

/-- Embeds `_create_metadata` (src lines 155 to 162). -/
def _create_metadata (cwd : String) (fs : FS) (filename : String) : Except Err PyVal :=
  match _hash_file_contents cwd fs filename with
  | .ok h => .ok (.dict [("sha1", .str h)])
  | .error e => .error e

/-- Embeds `_retrieve_metadata` (src lines 164 to 180): missing file raises
`FileNotFoundError`; then the metadata path is built with
`os.path.join(self._get_local_repo_base_path, "meta", "file", hashval[:2],
hashval + ".meta")`, whose first operand is the bound method object; were
the path built, an existing record would be loaded and otherwise fresh
metadata created. -/
def _retrieve_metadata (cwd : String) (fs : FS) (filename : String) : Except Err PyVal :=
  if pyExists cwd fs filename then
    let hashval := sha1Hex filename
    match os_path_join
        [PathOperand.boundMethod, PathOperand.str "meta", PathOperand.str "file",
         PathOperand.str (strTake hashval 2), PathOperand.str (hashval ++ ".meta")] with
    | .error e => .error e
    | .ok metaFilename =>
      if pyExists cwd fs metaFilename then _load_compressed_file cwd fs metaFilename
      else _create_metadata cwd fs filename
  else .error (.fileNotFound "Expected valid filename")

/-- Embeds `_write_metadata` (src lines 182 to 193): missing file raises
`FileNotFoundError`; the metadata path is built with the same
`os.path.join` call whose first operand is the bound method object; were the
path built, the record would be persisted there. -/
def _write_metadata (cwd : String) (fs : FS) (filename : String) (metadata : PyVal) :
    Except Err FS :=
  if pyExists cwd fs filename then
    let hashval := sha1Hex filename
    match os_path_join
        [PathOperand.boundMethod, PathOperand.str "meta", PathOperand.str "file",
         PathOperand.str (strTake hashval 2), PathOperand.str (hashval ++ ".meta")] with
    | .error e => .error e
    | .ok metaFilename => _save_and_compress cwd fs metaFilename metadata
  else .error (.fileNotFound "Expected valid filename")

/-- The wrapping step of `add_metadata` (src lines 201 to 202): the guard is
`metadata is not dict`, an identity comparison against the built-in type
object `dict`, so every value other than that type object — dictionaries
included — is wrapped as a singleton mapping under the key `data`. -/
def wrapMetadataArg (metadata : PyVal) : PyVal :=
  match metadata with
  | .dictType => .dictType
  | m => .dict [("data", m)]

/-- The merge step of `add_metadata` (src lines 206 to 209): update the
`user` sub-mapping in place when present, otherwise install the new value
under `user`. -/
def mergeUser (baseMeta metadata : PyVal) : Except Err PyVal :=
  match baseMeta with
  | .dict kvs =>
    match kvs.lookup "user" with
    | some u =>
      match pyDictUpdate u metadata with
      | .ok u2 => .ok (.dict (dictSet kvs "user" u2))
      | .error e => .error e
    | Option.none => .ok (.dict (dictSet kvs "user" metadata))
  | _ => .error (.typeError "argument of type is not iterable")

/-- Embeds `add_metadata` (src lines 195 to 209): assert the arguments, wrap
the metadata, retrieve the existing record and merge into its `user`
sub-mapping.  The method ends there: the merged record is only held in
memory, `_write_metadata` is never called, and the filesystem is returned
unchanged. -/
def add_metadata (cwd : String) (fs : FS) (filename : Option String) (metadata : PyVal) :
    Except Err FS :=
  match filename with
  | Option.none => .error (.assertionError "Expected filename")
  | some filename =>
    match metadata with
    | .none => .error (.assertionError "Expected metadata")
    | metadata =>
      let metadata := wrapMetadataArg metadata
      match _retrieve_metadata cwd fs filename with
      | .error e => .error e
      | .ok baseMeta =>
        match mergeUser baseMeta metadata with
        | .ok _merged => .ok fs
        | .error e => .error e

/-- Embeds `get_metadata` (src lines 211 to 221): assert the argument,
retrieve the record, and return its `user` sub-mapping when present and the
empty mapping otherwise. -/
def get_metadata (cwd : String) (fs : FS) (filename : Option String) : Except Err PyVal :=
  match filename with
  | Option.none => .error (.assertionError "Expected filename")
  | some filename =>
    match _retrieve_metadata cwd fs filename with
    | .error e => .error e
    | .ok baseMeta =>
      match baseMeta with
      | .dict kvs =>
        .ok (match kvs.lookup "user" with
             | some u => u
             | Option.none => .dict [])
      | _ => .error (.typeError "argument of type is not iterable")

/-- Modelled from the spec (section 3): the on-disk location
`meta/file/<shard>/<digest>.meta` of the metadata record of a file, used to
state the hypothesis that no prior record exists; the path computation of
the reference itself never completes (see `_retrieve_metadata`). -/
def metaRecordPath (home name : String) : String :=
  pyJoin (metaFileShardDir home (shard name)) (sha1Hex name ++ ".meta")

/-! ### Codec round-trip lemmas -/

theorem intDec_intEnc (n : Int) : intDec (intEnc n) = n := by
  unfold intEnc intDec
  split_ifs <;> omega

theorem decodeChars_tokens (cs : List Char) :
    ∀ rest, decodeChars cs.length (cs.map Char.toNat ++ rest) = some (cs, rest) := by
  induction cs with
  | nil => intro rest; rfl
  | cons c cs ih =>
    intro rest
    simp only [List.length_cons, List.map_cons, List.cons_append, decodeChars, List.append_eq,
      ih rest, Char.ofNat_toNat]

theorem decodeStr_tokens (s : String) (rest : List Nat) :
    decodeStr (strTokens s ++ rest) = some (s, rest) := by
  have hmk : String.mk s.data = s := by cases s; rfl
  simp only [strTokens, List.cons_append, decodeStr, decodeChars_tokens s.data rest, hmk]

theorem pySize_pos (v : PyVal) : 1 ≤ pySize v := by
  cases v <;> simp only [pySize] <;> omega

theorem pySize_le_list (xs : List PyVal) (x : PyVal) (h : x ∈ xs) :
    pySize x ≤ pySizeList xs := by
  induction xs with
  | nil => cases h
  | cons a as ih =>
    rcases List.mem_cons.mp h with h1 | h2
    · subst h1; simp only [pySizeList]; omega
    · have := ih h2; simp only [pySizeList]; omega

theorem pySize_le_dict (kvs : List (String × PyVal)) (kv : String × PyVal) (h : kv ∈ kvs) :
    pySize kv.2 ≤ pySizeDict kvs := by
  induction kvs with
  | nil => cases h
  | cons a as ih =>
    rcases List.mem_cons.mp h with h1 | h2
    · subst h1; cases kv with | mk k v => simp only [pySizeDict]; omega
    · have := ih h2
      cases a with | mk k v => simp only [pySizeDict]; omega

theorem decodeManyWith_tokens (fuel : Nat)
    (H : ∀ v rest, pySize v ≤ fuel → decodeVal fuel (encodeVal v ++ rest) = some (v, rest))
    (xs : List PyVal) :
    ∀ rest, (∀ x ∈ xs, pySize x ≤ fuel) →
      decodeManyWith (decodeVal fuel) xs.length (encodeListTokens xs ++ rest) =
        some (xs, rest) := by
  induction xs with
  | nil => intro rest _; simp only [encodeListTokens, List.nil_append, List.length_nil]; rfl
  | cons x xs ih =>
    intro rest hall
    have hx : pySize x ≤ fuel := hall x (List.mem_cons_self x xs)
    have hxs : ∀ y ∈ xs, pySize y ≤ fuel := fun y hy => hall y (List.mem_cons_of_mem x hy)
    simp only [encodeListTokens, List.append_assoc, List.length_cons, decodeManyWith,
      H x (encodeListTokens xs ++ rest) hx, ih rest hxs]

theorem decodePairsWith_tokens (fuel : Nat)
    (H : ∀ v rest, pySize v ≤ fuel → decodeVal fuel (encodeVal v ++ rest) = some (v, rest))
    (kvs : List (String × PyVal)) :
    ∀ rest, (∀ kv ∈ kvs, pySize kv.2 ≤ fuel) →
      decodePairsWith (decodeVal fuel) kvs.length (encodeDictTokens kvs ++ rest) =
        some (kvs, rest) := by
  induction kvs with
  | nil => intro rest _; simp only [encodeDictTokens, List.nil_append, List.length_nil]; rfl
  | cons kv kvs ih =>
    intro rest hall
    cases kv with
    | mk k v =>
      have hv : pySize v ≤ fuel := hall (k, v) (List.mem_cons_self (k, v) kvs)
      have hkvs : ∀ e ∈ kvs, pySize e.2 ≤ fuel := fun e he => hall e (List.mem_cons_of_mem _ he)
      simp only [encodeDictTokens, List.append_assoc, List.length_cons, decodePairsWith,
        decodeStr_tokens k (encodeVal v ++ (encodeDictTokens kvs ++ rest)),
        H v (encodeDictTokens kvs ++ rest) hv, ih rest hkvs]

theorem decodeVal_encodeVal (fuel : Nat) :
    ∀ (v : PyVal) (rest : List Nat), pySize v ≤ fuel →
      decodeVal fuel (encodeVal v ++ rest) = some (v, rest) := by
  induction fuel with
  | zero => intro v rest h; exact absurd h (by have := pySize_pos v; omega)
  | succ fuel ih =>
    intro v rest h
    cases v with
    | none => simp only [encodeVal, List.cons_append, List.nil_append, decodeVal]
    | int n =>
      simp only [encodeVal, List.cons_append, List.nil_append, decodeVal, intDec_intEnc]
    | str s =>
      simp only [encodeVal, List.cons_append, decodeVal, decodeStr_tokens s rest]
    | dictType => simp only [encodeVal, List.cons_append, List.nil_append, decodeVal]
    | list xs =>
      have hxs : ∀ x ∈ xs, pySize x ≤ fuel := by
        intro x hx
        have h1 := pySize_le_list xs x hx
        have h2 : pySize (PyVal.list xs) = 1 + pySizeList xs := by simp only [pySize]
        omega
      simp only [encodeVal, List.cons_append, List.append_assoc, decodeVal,
        decodeManyWith_tokens fuel ih xs rest hxs]
    | dict kvs =>
      have hkvs : ∀ kv ∈ kvs, pySize kv.2 ≤ fuel := by
        intro kv hkv
        have h1 := pySize_le_dict kvs kv hkv
        have h2 : pySize (PyVal.dict kvs) = 1 + pySizeDict kvs := by simp only [pySize]
        omega
      simp only [encodeVal, List.cons_append, List.append_assoc, decodeVal,
        decodePairsWith_tokens fuel ih kvs rest hkvs]

theorem decodeBlob_blobEncode (v : PyVal) : decodeBlob (blobEncode v) = some v := by
  have h := decodeVal_encodeVal (pySize v) v [] (Nat.le_refl _)
  rw [List.append_nil] at h
  simp only [decodeBlob, blobEncode, h]

/-! ### Helper lemmas about the embedded methods -/

theorem os_path_join_boundMethod_head (l : List PathOperand) :
    os_path_join (PathOperand.boundMethod :: l) =
      .error (.typeError "expected str, bytes or os.PathLike object, not method") := rfl

theorem _retrieve_metadata_eq (cwd : String) (fs : FS) (f : String) :
    _retrieve_metadata cwd fs f =
      (if pyExists cwd fs f
       then .error (.typeError "expected str, bytes or os.PathLike object, not method")
       else .error (.fileNotFound "Expected valid filename")) := by
  cases h : pyExists cwd fs f <;> simp [_retrieve_metadata, h, os_path_join]

theorem load_of_lookup_blob (cwd : String) (fs : FS) (p : String) (b : Blob) (v : PyVal)
    (hb : fs.files.lookup (resolve cwd p) = some (FileData.blob b))
    (hd : decodeBlob b = some v) :
    _load_compressed_file cwd fs p = .ok v := by
  have hex : pyExists cwd fs p = true := by simp [pyExists, hb]
  simp [_load_compressed_file, hex, hb, hd]

theorem hexDigitChar_mem_hexvals : ∀ d, d < 16 → hexDigitChar d ∈ hexvals := by decide

theorem mem_shardCombs_of_pair (a b : Char) (ha : a ∈ hexvals) (hb : b ∈ hexvals) :
    String.mk [a, b] ∈ shardCombs :=
  List.mem_flatten.mpr
    ⟨hexvals.map (fun b => String.mk [a, b]),
     List.mem_map_of_mem (fun a => hexvals.map (fun b => String.mk [a, b])) ha,
     List.mem_map_of_mem (fun b => String.mk [a, b]) hb⟩

theorem shard_data_pair (n : String) :
    (shard n).data =
      [hexDigitChar (stringSeed n / 16 ^ 39 % 16), hexDigitChar (stringSeed n / 16 ^ 38 % 16)] := by
  have h2 : (List.range 40).take 2 = [0, 1] := by decide
  simp only [shard, strTake, sha1Hex, ← List.map_take, h2, List.map_cons, List.map_nil]

theorem mem_foldl_init (step : List String → String → List String)
    (hstep : ∀ d item y, y ∈ d → y ∈ step d item) :
    ∀ (l : List String) (init : List String) (y : String), y ∈ init → y ∈ l.foldl step init := by
  intro l
  induction l with
  | nil => intro init y hy; exact hy
  | cons a as ih => intro init y hy; exact ih (step init a) y (hstep init a y hy)

theorem init_setup_step_mem (home : String) (d : List String) (item y : String)
    (hy : y ∈ d) :
    y ∈ os_makedirs (os_makedirs d (cacheShardDir home item)) (metaFileShardDir home item) := by
  simp only [os_makedirs, List.append_assoc, List.mem_append]
  exact Or.inl hy

theorem mem_foldl_shards (home : String) (l : List String) (x : String) (hx : x ∈ l) :
    ∀ init : List String,
      cacheShardDir home x ∈
          l.foldl (fun d item =>
            os_makedirs (os_makedirs d (cacheShardDir home item)) (metaFileShardDir home item))
            init ∧
        metaFileShardDir home x ∈
          l.foldl (fun d item =>
            os_makedirs (os_makedirs d (cacheShardDir home item)) (metaFileShardDir home item))
            init := by
  induction l with
  | nil => cases hx
  | cons a as ih =>
    intro init
    rcases List.mem_cons.mp hx with h1 | h2
    · subst h1
      simp only [List.foldl_cons]
      constructor <;>
        exact mem_foldl_init _ (init_setup_step_mem home) as _ _ (by simp [os_makedirs])
    · simp only [List.foldl_cons]
      exact ih h2 _

theorem mem_init_setup_of_mem_shardCombs (home : String) (dirs0 : List String) (x : String)
    (hx : x ∈ shardCombs) :
    cacheShardDir home x ∈ init_setup home dirs0 ∧
      metaFileShardDir home x ∈ init_setup home dirs0 := by
  have h := mem_foldl_shards home shardCombs x hx
    (([["meta", "dir"], ["meta", "files"], ["cache"]] : List (List String)).foldl
      (fun d child => os_makedirs d (child.foldl pyJoin (_get_local_repo_base_path home))) dirs0)
  simpa only [init_setup] using h

/-- Utility: rebuilding a string from its character list is the identity. -/
theorem strMk_data (s : String) : String.mk s.data = s := by cases s; rfl

/-! ### Claim theorems -/

/-- C1: the claim says `add_metadata` retrieves the record, merges the new
metadata into the `user` sub-mapping and persists the merged record.  The
code cannot do this: for every state and every argument, `add_metadata`
raises an error — an `AssertionError` for missing arguments, a
`FileNotFoundError` for a missing file, and otherwise the `TypeError` from
passing the bound method `self._get_local_repo_base_path` (without call
parentheses) to `os.path.join` inside `_retrieve_metadata`; and even apart
from that error the method body contains no call to `_write_metadata`, so
nothing is ever persisted. -/
theorem add_metadata_never_persists (cwd : String) (fs : FS) (filename : Option String)
    (metadata : PyVal) :
    ∃ e, add_metadata cwd fs filename metadata = Except.error e := by
  cases filename with
  | none => exact ⟨_, rfl⟩
  | some f =>
    have hr := _retrieve_metadata_eq cwd fs f
    have hr2 : ∃ e2, _retrieve_metadata cwd fs f = Except.error e2 := by
      cases hex : pyExists cwd fs f <;> rw [hex] at hr <;> simp at hr <;> exact ⟨_, hr⟩
    obtain ⟨e2, he2⟩ := hr2
    cases metadata <;> simp only [add_metadata, he2] <;> exact ⟨_, rfl⟩

/-- C2: the claim says that after `add_metadata(f, {"a": 1})` and
`add_metadata(f, {"b": 2})`, `get_metadata(f)` returns `{"a": 1, "b": 2}`.
On the code, with `f.txt` an existing file, both `add_metadata` calls and
the final `get_metadata` call raise the `TypeError` coming from the
unparenthesised `self._get_local_repo_base_path` inside
`_retrieve_metadata`; no merged mapping is ever returned or stored. -/
theorem metadata_merge_sequence_fails :
    add_metadata "/d" (FS.mk [("/d/f.txt", FileData.raw [104])] ["/", "/d"] []) (some "f.txt")
        (.dict [("a", .int 1)]) =
      .error (.typeError "expected str, bytes or os.PathLike object, not method") ∧
    add_metadata "/d" (FS.mk [("/d/f.txt", FileData.raw [104])] ["/", "/d"] []) (some "f.txt")
        (.dict [("b", .int 2)]) =
      .error (.typeError "expected str, bytes or os.PathLike object, not method") ∧
    get_metadata "/d" (FS.mk [("/d/f.txt", FileData.raw [104])] ["/", "/d"] []) (some "f.txt") =
      .error (.typeError "expected str, bytes or os.PathLike object, not method") :=
  ⟨rfl, rfl, rfl⟩

/-- C3: round-trip law of the blob store: saving any serializable value at a
path whose parent directory exists (and which does not name an existing
directory) and loading it back returns the original value. -/
theorem save_load_roundtrip (cwd p : String) (fs : FS) (d : PyVal)
    (hpar : fs.dirs.contains (pyDirname (resolve cwd p)) = true)
    (hnd : fs.dirs.contains (resolve cwd p) = false) :
    (_save_and_compress cwd fs p d).bind (fun fs2 => _load_compressed_file cwd fs2 p) =
      .ok d := by
  have hload : ∀ files1 : List (String × FileData),
      _load_compressed_file cwd
        { fs with files := (resolve cwd p, FileData.blob (blobEncode d)) :: files1 } p =
        .ok d := by
    intro files1
    exact load_of_lookup_blob cwd _ p (blobEncode d) d (by simp [List.lookup])
      (decodeBlob_blobEncode d)
  cases hl : fs.files.lookup (resolve cwd p) with
  | none =>
    have hnd2 : resolve cwd p ∉ fs.dirs := by simpa using hnd
    have hex : pyExists cwd fs p = false := by simp [pyExists, hl, hnd2]
    simp only [_save_and_compress, hex, hpar, Bool.false_eq_true, if_false, if_true, Except.bind]
    exact hload fs.files
  | some fd =>
    have hex : pyExists cwd fs p = true := by simp [pyExists, hl]
    simp only [_save_and_compress, hex, hl, hpar, if_true, Except.bind]
    exact hload _

/-- Witness for C3 at a concrete path and nested value. -/
theorem save_load_roundtrip_witness :
    (_save_and_compress "/" (FS.mk [] ["/", "/tmp"] []) "/tmp/x.sav"
        (.dict [("k", .list [.int 1, .int (-2), .str "s", .none])])).bind
      (fun fs2 => _load_compressed_file "/" fs2 "/tmp/x.sav") =
      .ok (.dict [("k", .list [.int 1, .int (-2), .str "s", .none])]) :=
  save_load_roundtrip "/" "/tmp/x.sav" (FS.mk [] ["/", "/tmp"] [])
    (.dict [("k", .list [.int 1, .int (-2), .str "s", .none])]) (by rfl) (by rfl)

set_option maxRecDepth 100000 in
/-- C4: `init_setup` creates the full programmatically generated 256-element
shard space (all pairs of the 16 lowercase hex digits) under both `cache/`
and `meta/file/`, and the shard of every name is exactly two lowercase hex
characters lying inside that shard set, so both shard directories for any
name exist after initialization. -/
theorem init_setup_covers_shards (home : String) (dirs0 : List String) (n : String) :
    shardCombs.length = 256 ∧ shardCombs.Nodup ∧
    hexvals = "0123456789abcdef".data ∧
    (shard n).length = 2 ∧
    (∀ c ∈ (shard n).data, c ∈ hexvals) ∧
    shard n ∈ shardCombs ∧
    cacheShardDir home (shard n) ∈ init_setup home dirs0 ∧
    metaFileShardDir home (shard n) ∈ init_setup home dirs0 := by
  have hd := shard_data_pair n
  have hc0 : hexDigitChar (stringSeed n / 16 ^ 39 % 16) ∈ hexvals :=
    hexDigitChar_mem_hexvals _ (Nat.mod_lt _ (by norm_num))
  have hc1 : hexDigitChar (stringSeed n / 16 ^ 38 % 16) ∈ hexvals :=
    hexDigitChar_mem_hexvals _ (Nat.mod_lt _ (by norm_num))
  have hshard : shard n = String.mk
      [hexDigitChar (stringSeed n / 16 ^ 39 % 16), hexDigitChar (stringSeed n / 16 ^ 38 % 16)] := by
    rw [← hd, strMk_data]
  have hmem : shard n ∈ shardCombs := by
    rw [hshard]; exact mem_shardCombs_of_pair _ _ hc0 hc1
  refine ⟨by decide, by decide, by decide, ?_, ?_, hmem,
    (mem_init_setup_of_mem_shardCombs home dirs0 _ hmem).1,
    (mem_init_setup_of_mem_shardCombs home dirs0 _ hmem).2⟩
  · rw [hshard]; rfl
  · intro c hc
    rw [hd] at hc
    rcases List.mem_cons.mp hc with h1 | h2
    · subst h1; exact hc0
    · rcases List.mem_cons.mp h2 with h3 | h4
      · subst h3; exact hc1
      · cases h4

/-- Witness for C4 at a concrete name, home and starting state. -/
theorem init_setup_covers_shards_witness :
    shard "f.txt" ∈ shardCombs ∧
      cacheShardDir "/h" (shard "f.txt") ∈ init_setup "/h" [] ∧
      metaFileShardDir "/h" (shard "f.txt") ∈ init_setup "/h" [] :=
  ⟨(init_setup_covers_shards "/h" [] "f.txt").2.2.2.2.2.1,
   (init_setup_covers_shards "/h" [] "f.txt").2.2.2.2.2.2.1,
   (init_setup_covers_shards "/h" [] "f.txt").2.2.2.2.2.2.2⟩

/-- C5: the claim says `add_file_to_cache` copies the source bytes into
`cache/<shard>/<name>`, raising `NotFoundError` for a missing source.  The
code can do neither: for every state and every argument the call raises the
`TypeError` from passing the bound method `self._get_local_repo_base_path`
(without call parentheses) to `os.path.join` when building the destination
path, before `shutil.copy` is ever reached. -/
theorem add_file_to_cache_always_typeError (cwd : String) (fs : FS) (filename : String)
    (datastore : Option String) :
    add_file_to_cache cwd fs filename datastore =
      .error (.typeError "expected str, bytes or os.PathLike object, not method") := by
  cases datastore <;> rfl

/-- C6: the claim says `scan_files` persists exactly the non-directory
entries, so a source with `a.txt`, `b.txt` and a subdirectory `sub/` yields
`fileList == ["a.txt", "b.txt"]`.  On the code, with the working directory
`/work` different from the source `/src`, the persisted list also contains
`sub`, because the filter applies `os.path.isdir` to the bare entry name,
which resolves against the working directory instead of the source. -/
theorem scan_files_keeps_subdir :
    ∃ fs2,
      scan_files "/h" "/work"
          (FS.mk []
            ["/", "/h", "/h/.localcache", "/h/.localcache/meta", "/h/.localcache/meta/dir",
             "/work", "/src", "/src/sub"]
            [("/src", ["a.txt", "b.txt", "sub"])]) "/src" = .ok fs2 ∧
        ∃ b,
          fs2.files.lookup
              (pyJoin (pyJoin (pyJoin (_get_local_repo_base_path "/h") "meta") "dir")
                (sha1Hex "/src" ++ ".sav")) = some (FileData.blob b) ∧
            decodeBlob b =
              some (.dict [("fileList", .list [.str "a.txt", .str "b.txt", .str "sub"])]) := by
  refine ⟨_, rfl,
    blobEncode (.dict [("fileList", .list [.str "a.txt", .str "b.txt", .str "sub"])]), ?_, ?_⟩
  · rfl
  · exact decodeBlob_blobEncode _

/-- C7: `add_source` validates each candidate as an existing directory: a
single non-directory fails with the `TypeError` (the `InvalidArgument` of
the spec taxonomy) and, the error being raised before any mutation, the
source list is unchanged; a list argument appends exactly its
directory-entries in order; a missing argument fails the same way. -/
theorem add_source_validation (dirs : List String) (cwd : String) (items : List PyVal) :
    (∀ s : String, os_path_isdir dirs cwd s = false →
      add_source dirs cwd (.list items) (.strArg s) =
        .error (.typeError "Unable to determine data source type.")) ∧
    (∀ xs : List String,
      add_source dirs cwd (.list items) (.listArg xs) =
        .ok (.list (items ++
          (xs.filter (fun item => os_path_isdir dirs cwd item)).map PyVal.str))) ∧
    add_source dirs cwd (.list items) .noneArg =
      .error (.typeError "Expected data source to be specified.") := by
  refine ⟨?_, ?_, rfl⟩
  · intro s hs
    simp [add_source, hs]
  · intro xs
    rfl

/-- Witness for C7: a bad scalar is rejected, a mixed list keeps only the
existing directory, a missing argument is rejected. -/
theorem add_source_validation_witness :
    add_source ["/ok"] "/" (.list []) (.strArg "/bad") =
      .error (.typeError "Unable to determine data source type.") ∧
    add_source ["/ok"] "/" (.list []) (.listArg ["/ok", "/bad"]) =
      .ok (.list [PyVal.str "/ok"]) ∧
    add_source ["/ok"] "/" (.list []) .noneArg =
      .error (.typeError "Expected data source to be specified.") :=
  ⟨(add_source_validation ["/ok"] "/" []).1 "/bad" (by rfl),
   (add_source_validation ["/ok"] "/" []).2.1 ["/ok", "/bad"],
   (add_source_validation ["/ok"] "/" []).2.2⟩

/-- C8: `load_states` never raises and keeps the in-memory source list
unchanged on every failure — missing `sources.state`, undecodable contents,
or a loaded record without the `datasource` key — and on success the list
becomes the persisted value. -/
theorem load_states_resilience (home cwd : String) (fs : FS) (st : PyVal) :
    (pyExists cwd fs (pyJoin (_get_local_repo_base_path home) "sources.state") = false →
      load_states home cwd fs st = st) ∧
    (∀ bs, fs.files.lookup
        (resolve cwd (pyJoin (_get_local_repo_base_path home) "sources.state")) =
          some (FileData.raw bs) →
      load_states home cwd fs st = st) ∧
    (∀ v e, _load_compressed_file cwd fs
        (pyJoin (_get_local_repo_base_path home) "sources.state") = .ok v →
      pyGetItem v "datasource" = .error e → load_states home cwd fs st = st) ∧
    (∀ v w, _load_compressed_file cwd fs
        (pyJoin (_get_local_repo_base_path home) "sources.state") = .ok v →
      pyGetItem v "datasource" = .ok w → load_states home cwd fs st = w) := by
  refine ⟨?_, ?_, ?_, ?_⟩
  · intro h
    simp [load_states, _load_compressed_file, h]
  · intro bs h
    have hex : pyExists cwd fs (pyJoin (_get_local_repo_base_path home) "sources.state") = true := by
      simp [pyExists, h]
    simp [load_states, _load_compressed_file, hex, h]
  · intro v e h1 h2
    simp [load_states, h1, h2]
  · intro v w h1 h2
    simp [load_states, h1, h2]

/-- Witness for C8: the four cases at concrete states — missing state file,
raw undecodable contents, a record without the `datasource` key, and a
well-formed record that is restored. -/
theorem load_states_resilience_witness :
    load_states "/h" "/" (FS.mk [] [] []) (.list [.str "keep"]) = .list [.str "keep"] ∧
    load_states "/h" "/"
        (FS.mk [(pyJoin (_get_local_repo_base_path "/h") "sources.state", FileData.raw [9])] [] [])
        (.list [.str "keep"]) = .list [.str "keep"] ∧
    load_states "/h" "/"
        (FS.mk [(pyJoin (_get_local_repo_base_path "/h") "sources.state",
          FileData.blob (blobEncode (.dict [])))] [] [])
        (.list [.str "keep"]) = .list [.str "keep"] ∧
    load_states "/h" "/"
        (FS.mk [(pyJoin (_get_local_repo_base_path "/h") "sources.state",
          FileData.blob (blobEncode (.dict [("datasource", .list [.str "/a"])])))] [] [])
        (.list [.str "keep"]) = .list [.str "/a"] :=
  ⟨(load_states_resilience "/h" "/" (FS.mk [] [] []) (.list [.str "keep"])).1 (by rfl),
   (load_states_resilience "/h" "/"
      (FS.mk [(pyJoin (_get_local_repo_base_path "/h") "sources.state", FileData.raw [9])] [] [])
      (.list [.str "keep"])).2.1 [9] (by rfl),
   (load_states_resilience "/h" "/"
      (FS.mk [(pyJoin (_get_local_repo_base_path "/h") "sources.state",
        FileData.blob (blobEncode (.dict [])))] [] [])
      (.list [.str "keep"])).2.2.1 (.dict []) Err.keyError
      (load_of_lookup_blob "/" _ _ _ _ (by rfl) (decodeBlob_blobEncode _)) rfl,
   (load_states_resilience "/h" "/"
      (FS.mk [(pyJoin (_get_local_repo_base_path "/h") "sources.state",
        FileData.blob (blobEncode (.dict [("datasource", .list [.str "/a"])])))] [] [])
      (.list [.str "keep"])).2.2.2 (.dict [("datasource", .list [.str "/a"])])
      (.list [.str "/a"])
      (load_of_lookup_blob "/" _ _ _ _ (by rfl) (decodeBlob_blobEncode _)) rfl⟩

/-- C9: for a filename that does not exist on disk (and with no prior
metadata record), `get_metadata` fails with `FileNotFoundError`, and
`get_metadata` without a filename fails at the assertion level. -/
theorem get_metadata_missing_file (home cwd : String) (fs : FS) (name : String)
    (hne : pyExists cwd fs name = false)
    (_hrec : fs.files.lookup (metaRecordPath home name) = Option.none) :
    get_metadata cwd fs (some name) = .error (.fileNotFound "Expected valid filename") ∧
      get_metadata cwd fs Option.none = .error (.assertionError "Expected filename") := by
  constructor
  · simp [get_metadata, _retrieve_metadata, hne]
  · rfl

/-- Witness for C9 at a concrete empty repository. -/
theorem get_metadata_missing_file_witness :
    get_metadata "/" (FS.mk [] ["/"] []) (some "does/not/exist") =
      .error (.fileNotFound "Expected valid filename") ∧
    get_metadata "/" (FS.mk [] ["/"] []) Option.none =
      .error (.assertionError "Expected filename") :=
  get_metadata_missing_file "/h" "/" (FS.mk [] ["/"] []) "does/not/exist" (by rfl) (by rfl)

/-- C10: the guard of `add_metadata` is `metadata is not dict`, an identity
comparison against the built-in type object, so every non-`None` metadata
value other than that type object — already-mapping values included — is
wrapped as a singleton mapping under the key `data` before the merge. -/
theorem add_metadata_wraps_nondict (v : PyVal) (h1 : v ≠ PyVal.none)
    (h2 : v ≠ PyVal.dictType) :
    wrapMetadataArg v = PyVal.dict [("data", v)] := by
  cases v <;> first | rfl | exact absurd rfl h2

/-- Witness for C10: a mapping value is itself wrapped under `data`. -/
theorem add_metadata_wraps_nondict_witness :
    wrapMetadataArg (PyVal.dict [("a", PyVal.int 1)]) =
      PyVal.dict [("data", PyVal.dict [("a", PyVal.int 1)])] :=
  add_metadata_wraps_nondict (PyVal.dict [("a", PyVal.int 1)])
    (fun h => PyVal.noConfusion h) (fun h => PyVal.noConfusion h)
